import Mathlib

/-!
Shallow embedding of the GTFS bus-routes backend (src/index.js): the in-memory
record store (five JS Maps), the loader that derives primary keys per entity and
populates the store, and the stops-for-route join query.
-/

/-- A parsed CSV data row: the plain object produced by the CSV reader, modelled
as an association list from column names to string values. -/
abbrev Row : Type := List (String × String)

/-- JS property access `row.field`: the value of the column when present. -/
def rowGet (r : Row) (field : String) : Option String :=
  (r.find? (fun p => p.1 == field)).map Prod.snd

/-- JS template-literal rendering of a possibly-absent field: an absent property
(`undefined`) renders as the text "undefined". -/
def jsToString : Option String → String
  | none => "undefined"
  | some s => s

/-- A JS `Map` with string keys, modelled as its ordered entry list
(insertion order; keys unique by `Map` semantics). -/
abbrev JsMap : Type := List (String × Row)

/-- JS `Map.get(k)`: the value stored under `k`, if any. -/
def mapGet : JsMap → String → Option Row
  | [], _ => none
  | p :: rest, k => if p.1 = k then some p.2 else mapGet rest k

/-- JS `Map.get` applied to a possibly-undefined key expression: string keys never
equal `undefined`, so an absent key yields `undefined`. -/
def mapGetOpt (m : JsMap) (k : Option String) : Option Row :=
  match k with
  | none => none
  | some s => mapGet m s

/-- JS `Map.set(k, v)`: overwrite in place when the key is present, else append. -/
def mapSet : JsMap → String → Row → JsMap
  | [], k, v => [(k, v)]
  | p :: rest, k, v => if p.1 = k then (k, v) :: rest else p :: mapSet rest k v

/-- The function `getPrimaryKey(fileName, row)` from src/index.js: the switch over the five
file names; for stop_times.txt the key is the template literal
`${row.trip_id}_${row.stop_sequence}`; unknown files yield null. -/
def getPrimaryKey (fileName : String) (row : Row) : Option String :=
  if fileName = "routes.txt" then rowGet row "route_id"
  else if fileName = "stops.txt" then rowGet row "stop_id"
  else if fileName = "trips.txt" then rowGet row "trip_id"
  else if fileName = "stop_times.txt" then
    some (jsToString (rowGet row "trip_id") ++ "_" ++ jsToString (rowGet row "stop_sequence"))
  else if fileName = "calendar.txt" then rowGet row "service_id"
  else none

/-- One "data" event of the loader: `if (primaryKey) gtfsData[dataKey].set(primaryKey, row)`.
A JS string is falsy exactly when empty; null/undefined keys are falsy. -/
def loadRow (fileName : String) (m : JsMap) (row : Row) : JsMap :=
  match getPrimaryKey fileName row with
  | none => m
  | some k => if k = "" then m else mapSet m k row

/-- Loading one file's row stream into the (initially empty) collection. -/
def loadRows (fileName : String) (rows : List Row) : JsMap :=
  rows.foldl (loadRow fileName) []

/-- The key under which a row is actually inserted, if any (the truthiness
filter of `loadRow` applied to `getPrimaryKey`). -/
def insertedKey (fileName : String) (row : Row) : Option String :=
  match getPrimaryKey fileName row with
  | none => none
  | some k => if k = "" then none else some k

/-- The `gtfsData` record store: five keyed collections. -/
structure GTFSStore where
  routes : JsMap
  stops : JsMap
  trips : JsMap
  stop_times : JsMap
  calendar : JsMap
deriving DecidableEq

/-- GET /api/routes: `Array.from(gtfsData.routes.values())`. -/
def listRoutes (store : GTFSStore) : List Row := store.routes.map Prod.snd

/-- GET /api/stops: `Array.from(gtfsData.stops.values())`. -/
def listStops (store : GTFSStore) : List Row := store.stops.map Prod.snd

/-- The step `routeStops.add(stop)` for one resolved stop-time: JS `Set` dedups by object
identity, and a stop object fetched from the stops `Map` is determined by the key
it is stored under, so the accumulator tracks that key alongside the row.
Unresolved lookups (`undefined`) are skipped by the `if (stop)` guard. -/
def addStop (stops : JsMap) (acc : List (String × Row)) (sid : Option String) :
    List (String × Row) :=
  match sid with
  | none => acc
  | some k =>
    match mapGet stops k with
    | none => acc
    | some r => if acc.any (fun p => p.1 == k) then acc else acc ++ [(k, r)]

/-- GET /api/routes/:routeId/stops, with the dedup keys still attached:
filter trips by `trip.route_id === routeId`, per trip filter stop_times by
`stopTime.trip_id === trip.trip_id`, resolve `stop_id` in the stops map, and
accumulate into the identity-dedup set in first-encounter order. -/
def stopsForRouteAux (store : GTFSStore) (routeId : String) : List (String × Row) :=
  ((store.trips.map Prod.snd).filter (fun t => rowGet t "route_id" == some routeId)).foldl
    (fun acc trip =>
      ((store.stop_times.map Prod.snd).filter
          (fun st => rowGet st "trip_id" == rowGet trip "trip_id")).foldl
        (fun a st => addStop store.stops a (rowGet st "stop_id")) acc)
    []

/-- The response body of GET /api/routes/:routeId/stops: `Array.from(routeStops)`. -/
def stopsForRoute (store : GTFSStore) (routeId : String) : List Row :=
  (stopsForRouteAux store routeId).map Prod.snd

/-- The observable content of one required file at load time: absent, a parsed
row stream, or a stream/parse failure (the "error" events of the read stream and
of the CSV parser, carrying the underlying message). -/
inductive FileInput where
  | absent : FileInput
  | rows : List Row → FileInput
  | failure : Bool → String → FileInput
deriving DecidableEq

/-- The five required files presented to `loadGTFSData`, one `FileInput` each. -/
structure GTFSInput where
  routes : FileInput
  stops : FileInput
  trips : FileInput
  stop_times : FileInput
  calendar : FileInput
deriving DecidableEq

/-- Whether a file input is a read/parse failure. -/
def isFailure : FileInput → Bool
  | .failure _ _ => true
  | _ => false

/-- Processing one required file: absent files produce a console warning and
leave the collection empty; present files load their rows; a failure rejects
with the message built at the stream handlers
(`Error reading ${fileName}: ...` / `Error parsing ${fileName}: ...`). -/
def loadOne (fileName : String) (fi : FileInput) : Except String (List String × JsMap) :=
  match fi with
  | .absent => .ok (["Missing file: " ++ fileName], [])
  | .rows rs => .ok ([], loadRows fileName rs)
  | .failure parsing msg =>
      .error ((if parsing then "Error parsing " else "Error reading ") ++ fileName ++ ": " ++ msg)

/-- The body of `loadGTFSData`: the five files processed sequentially in the
fixed `fileMapping` order, aborting at the first failure. -/
def loadGTFSDataCore (inp : GTFSInput) : Except String (List String × GTFSStore) :=
  match loadOne "routes.txt" inp.routes with
  | .error e => .error e
  | .ok (w1, routesM) =>
    match loadOne "stops.txt" inp.stops with
    | .error e => .error e
    | .ok (w2, stopsM) =>
      match loadOne "trips.txt" inp.trips with
      | .error e => .error e
      | .ok (w3, tripsM) =>
        match loadOne "stop_times.txt" inp.stop_times with
        | .error e => .error e
        | .ok (w4, stopTimesM) =>
          match loadOne "calendar.txt" inp.calendar with
          | .error e => .error e
          | .ok (w5, calendarM) =>
            .ok (w1 ++ w2 ++ w3 ++ w4 ++ w5,
                 ⟨routesM, stopsM, tripsM, stopTimesM, calendarM⟩)

/-- The function `loadGTFSData` with its outermost catch: any failure is rethrown as
`GTFS data loading failed: ${error.message}`. -/
def loadGTFSData (inp : GTFSInput) : Except String (List String × GTFSStore) :=
  match loadGTFSDataCore inp with
  | .ok r => .ok r
  | .error e => .error ("GTFS data loading failed: " ++ e)

/-- Outcome of server start-up: either `app.listen` is reached with the loaded
store, or the catch branch runs `process.exit(1)` and no listener is bound. -/
inductive ServerOutcome where
  | listening : GTFSStore → ServerOutcome
  | exited : Nat → ServerOutcome
deriving DecidableEq

/-- The function `initializeServer`: await the load, then listen; on error exit(1). -/
def initServer (inp : GTFSInput) : ServerOutcome :=
  match loadGTFSData inp with
  | .ok (_, store) => .listening store
  | .error _ => .exited 1

/-- The collection an entity ends up with, per file input (empty when the file
is absent; failures never commit an observable store). -/
def loadCollection (fileName : String) : FileInput → JsMap
  | .rows rs => loadRows fileName rs
  | _ => []

/-- The console warnings contributed by one file. -/
def warnOf (fileName : String) : FileInput → List String
  | .absent => ["Missing file: " ++ fileName]
  | _ => []

/-- No file input is a failure. -/
def noFailure (inp : GTFSInput) : Prop :=
  isFailure inp.routes = false ∧ isFailure inp.stops = false ∧ isFailure inp.trips = false ∧
    isFailure inp.stop_times = false ∧ isFailure inp.calendar = false

/-- The store produced by a failure-free load. -/
def loadStore (inp : GTFSInput) : GTFSStore :=
  ⟨loadCollection "routes.txt" inp.routes,
   loadCollection "stops.txt" inp.stops,
   loadCollection "trips.txt" inp.trips,
   loadCollection "stop_times.txt" inp.stop_times,
   loadCollection "calendar.txt" inp.calendar⟩

/-- The warnings produced by a failure-free load, in processing order. -/
def allWarnings (inp : GTFSInput) : List String :=
  warnOf "routes.txt" inp.routes ++ warnOf "stops.txt" inp.stops ++
    warnOf "trips.txt" inp.trips ++ warnOf "stop_times.txt" inp.stop_times ++
    warnOf "calendar.txt" inp.calendar

theorem mapGet_mapSet_self (m : JsMap) (k : String) (v : Row) :
    mapGet (mapSet m k v) k = some v := by
  induction m with
  | nil => simp [mapSet, mapGet]
  | cons p rest ih =>
    by_cases hpk : p.1 = k
    · simp [mapSet, hpk, mapGet]
    · simp [mapSet, hpk, mapGet, ih]

theorem mapGet_mapSet_ne (m : JsMap) (k k' : String) (v : Row) (h : k' ≠ k) :
    mapGet (mapSet m k v) k' = mapGet m k' := by
  induction m with
  | nil => simp [mapSet, mapGet, Ne.symm h]
  | cons p rest ih =>
    by_cases hpk : p.1 = k
    · simp [mapSet, hpk, mapGet, Ne.symm h]
    · simp [mapSet, hpk, mapGet, ih]

theorem mem_keys_mapSet (m : JsMap) (k a : String) (v : Row)
    (ha : a ∈ (mapSet m k v).map Prod.fst) : a = k ∨ a ∈ m.map Prod.fst := by
  induction m with
  | nil =>
    simp [mapSet] at ha
    exact Or.inl ha
  | cons p rest ih =>
    by_cases hpk : p.1 = k
    · simp [mapSet, hpk] at ha
      rcases ha with h | h
      · exact Or.inl h
      · exact Or.inr (by simp [h])
    · simp [mapSet, hpk] at ha
      rcases ha with h | h
      · exact Or.inr (by simp [h])
      · rcases ih (by simpa using h) with h2 | h2
        · exact Or.inl h2
        · exact Or.inr (by simp at h2 ⊢; exact Or.inr h2)

theorem nodup_keys_mapSet (m : JsMap) (k : String) (v : Row)
    (h : (m.map Prod.fst).Nodup) : ((mapSet m k v).map Prod.fst).Nodup := by
  induction m with
  | nil => simp [mapSet]
  | cons p rest ih =>
    simp only [List.map_cons, List.nodup_cons] at h
    by_cases hpk : p.1 = k
    · simp only [mapSet, hpk, if_pos, List.map_cons, List.nodup_cons]
      exact ⟨hpk ▸ h.1, h.2⟩
    · simp only [mapSet, hpk, if_neg, ite_false, List.map_cons, List.nodup_cons]
      refine ⟨fun hmem => ?_, ih h.2⟩
      rcases mem_keys_mapSet rest k p.1 v hmem with h2 | h2
      · exact hpk h2
      · exact h.1 h2

theorem mem_mapSet (m : JsMap) (k : String) (v : Row) (p : String × Row)
    (hp : p ∈ mapSet m k v) : p = (k, v) ∨ p ∈ m := by
  induction m with
  | nil =>
    simp [mapSet] at hp
    exact Or.inl hp
  | cons q rest ih =>
    by_cases hqk : q.1 = k
    · simp [mapSet, hqk] at hp
      rcases hp with h | h
      · exact Or.inl h
      · exact Or.inr (List.mem_cons_of_mem _ h)
    · simp [mapSet, hqk] at hp
      rcases hp with h | h
      · exact Or.inr (h ▸ List.mem_cons_self _ _)
      · rcases ih h with h2 | h2
        · exact Or.inl h2
        · exact Or.inr (List.mem_cons_of_mem _ h2)

theorem loadRow_eq (fileName : String) (m : JsMap) (row : Row) :
    loadRow fileName m row =
      match insertedKey fileName row with
      | none => m
      | some k => mapSet m k row := by
  unfold loadRow insertedKey
  cases getPrimaryKey fileName row with
  | none => rfl
  | some k => by_cases h : k = "" <;> simp [h]

theorem foldl_inv {α β : Type} (P : α → Prop) (f : α → β → α)
    (hf : ∀ a b, P a → P (f a b)) (l : List β) (a : α) (h : P a) :
    P (l.foldl f a) := by
  induction l generalizing a with
  | nil => exact h
  | cons b t ih => exact ih (f a b) (hf a b h)

theorem getLast_cons_getD {α : Type} (a : α) (l : List α) :
    (a :: l).getLast? = some (l.getLast?.getD a) := by
  induction l generalizing a with
  | nil => rfl
  | cons c t ih =>
    rw [List.getLast?_cons_cons, ih c]
    simp

theorem mapGet_foldl_loadRow (fileName : String) (rs : List Row) (m : JsMap) (k : String) :
    mapGet (rs.foldl (loadRow fileName) m) k =
      ((rs.filter (fun r => insertedKey fileName r == some k)).getLast?).or (mapGet m k) := by
  induction rs generalizing m with
  | nil => rfl
  | cons r rest ih =>
    simp only [List.foldl_cons]
    rw [ih (loadRow fileName m r)]
    by_cases hP : (insertedKey fileName r == some k) = true
    · simp only [List.filter_cons]
      rw [if_pos hP, getLast_cons_getD]
      cases h2 : (rest.filter (fun r => insertedKey fileName r == some k)).getLast? with
      | some x => simp [h2, Option.or]
      | none =>
        simp only [h2, Option.getD, Option.or]
        have hik : insertedKey fileName r = some k := by
          have := hP
          simpa [beq_iff_eq] using this
        rw [loadRow_eq, hik, mapGet_mapSet_self]
    · simp only [List.filter_cons]
      rw [if_neg hP]
      congr 1
      rw [loadRow_eq]
      cases hik : insertedKey fileName r with
      | none => rfl
      | some k' =>
        have hne : k ≠ k' := by
          intro h
          apply hP
          rw [hik, h]
          simp
        exact mapGet_mapSet_ne m k' k r hne

theorem nodup_keys_loadRows (fileName : String) (rs : List Row) :
    ((loadRows fileName rs).map Prod.fst).Nodup := by
  unfold loadRows
  refine foldl_inv (fun m => (m.map Prod.fst).Nodup) (loadRow fileName) ?_ rs [] (by simp)
  intro m r h
  rw [loadRow_eq]
  cases insertedKey fileName r with
  | none => exact h
  | some k' => exact nodup_keys_mapSet m k' r h

/-- C4: after the loader processes any sequence of rows for one entity type, the
collection maps each derived primary key to exactly one row (the stored keys are
pairwise distinct, for every row sequence and hence after every insertion), and
the row stored under a key is the last row in input order whose derived,
truthiness-filtered primary key equals that key (last-write-wins). -/
theorem C4_last_write_wins (fileName : String) (rs : List Row) (k : String) :
    ((loadRows fileName rs).map Prod.fst).Nodup ∧
    mapGet (loadRows fileName rs) k =
      (rs.filter (fun r => insertedKey fileName r == some k)).getLast? := by
  refine ⟨nodup_keys_loadRows fileName rs, ?_⟩
  unfold loadRows
  rw [mapGet_foldl_loadRow]
  cases (rs.filter (fun r => insertedKey fileName r == some k)).getLast? <;>
    simp [Option.or, mapGet]

/-- Route row of the join-correctness scenario. -/
def r1Route : Row :=
  [("route_id", "R1"), ("route_short_name", "1"), ("route_long_name", "Line One"),
   ("route_type", "3")]

/-- Trip row of the scenario: trip T1 on route R1. -/
def t1Trip : Row :=
  [("route_id", "R1"), ("service_id", "WK"), ("trip_id", "T1"), ("trip_headsign", "Downtown")]

/-- Stop row of the scenario: stop S1. -/
def s1Stop : Row :=
  [("stop_id", "S1"), ("stop_name", "First Stop"), ("stop_lat", "40.0"), ("stop_lon", "-74.0")]

/-- StopTime row of the scenario: trip T1 visits stop S1. -/
def st1StopTime : Row :=
  [("trip_id", "T1"), ("arrival_time", "08:00:00"), ("departure_time", "08:00:00"),
   ("stop_id", "S1"), ("stop_sequence", "1")]

/-- The scenario input: one row per file, all files present. -/
def c1Input : GTFSInput :=
  ⟨.rows [r1Route], .rows [s1Stop], .rows [t1Trip], .rows [st1StopTime], .rows []⟩

/-- The store the loader builds from `c1Input`. -/
def c1Store : GTFSStore :=
  ⟨[("R1", r1Route)], [("S1", s1Stop)], [("T1", t1Trip)], [("T1_1", st1StopTime)], []⟩

/-- C1: for the record store loaded from Route R1 → Trip T1 (route_id = R1) →
StopTime (trip_id = T1, stop_id = S1) → Stop S1, the stops-for-route query applied
to "R1" returns exactly the one-element sequence containing stop S1's row. -/
theorem C1_join_correct :
    loadGTFSData c1Input = Except.ok ([], c1Store) ∧
    stopsForRoute c1Store "R1" = [s1Stop] :=
  ⟨rfl, rfl⟩

/-- First colliding StopTime row: trip_id "a_1", stop_sequence "2". -/
def c10Row1 : Row := [("trip_id", "a_1"), ("stop_sequence", "2")]

/-- Second colliding StopTime row: trip_id "a", stop_sequence "1_2". -/
def c10Row2 : Row := [("trip_id", "a"), ("stop_sequence", "1_2")]

/-- C10: the StopTime key derivation is not injective on distinct
(trip_id, stop_sequence) pairs when trip_id may contain an underscore: the distinct
rows (trip_id "a_1", stop_sequence "2") and (trip_id "a", stop_sequence "1_2") both
derive the key "a_1_2", so loading both retains only the later row. -/
theorem C10_key_collision :
    getPrimaryKey "stop_times.txt" c10Row1 = some "a_1_2" ∧
    getPrimaryKey "stop_times.txt" c10Row2 = some "a_1_2" ∧
    c10Row1 ≠ c10Row2 ∧
    loadRows "stop_times.txt" [c10Row1, c10Row2] = [("a_1_2", c10Row2)] :=
  ⟨rfl, rfl, by decide, rfl⟩

/-- A StopTime row whose key fields are both present but empty. -/
def c3Row : Row := [("trip_id", ""), ("stop_sequence", "")]

/-- C3 counterexample: a StopTime row whose key fields trip_id and stop_sequence are
both empty is nevertheless inserted by the loader, under the key "_": the derived
template-literal key always contains the underscore, is never empty, and therefore
always passes the truthiness guard, contradicting the claim that rows with
empty/absent key fields are never inserted under all five key rules. -/
theorem C3_counterexample :
    loadRows "stop_times.txt" [c3Row] = [("_", c3Row)] := rfl

/-- C3 (amended): for the four verbatim-key entities (Route, Stop, Trip, Calendar),
a row whose key field is empty or absent is never inserted: deleting such a row from
the input leaves the loaded collection unchanged. (For StopTime the derived key
always contains an underscore and is never empty, so every StopTime row is
inserted; see `C3_counterexample`.) -/
theorem C3_amended_empty_key_dropped (fileName keyField : String)
    (hf : (fileName, keyField) ∈
      [("routes.txt", "route_id"), ("stops.txt", "stop_id"),
       ("trips.txt", "trip_id"), ("calendar.txt", "service_id")])
    (r : Row) (hr : rowGet r keyField = none ∨ rowGet r keyField = some "")
    (rs1 rs2 : List Row) :
    loadRows fileName (rs1 ++ r :: rs2) = loadRows fileName (rs1 ++ rs2) := by
  have hkey : getPrimaryKey fileName r = rowGet r keyField := by
    simp only [List.mem_cons, List.not_mem_nil, or_false] at hf
    rcases hf with h | h | h | h <;>
      (simp only [Prod.mk.injEq] at h; obtain ⟨rfl, rfl⟩ := h; simp [getPrimaryKey])
  have hdead : ∀ m : JsMap, loadRow fileName m r = m := by
    intro m
    unfold loadRow
    rw [hkey]
    rcases hr with h | h <;> simp [h]
  unfold loadRows
  rw [List.foldl_append, List.foldl_append, List.foldl_cons, hdead]

theorem C3_amended_empty_key_dropped_witness :
    (("routes.txt", "route_id") ∈
        [("routes.txt", "route_id"), ("stops.txt", "stop_id"),
         ("trips.txt", "trip_id"), ("calendar.txt", "service_id")] ∧
      (rowGet [("route_id", "")] "route_id" = none ∨
        rowGet [("route_id", "")] "route_id" = some "")) ∧
    loadRows "routes.txt" ([] ++ [("route_id", "")] :: [[("route_id", "R9")]]) =
      loadRows "routes.txt" ([] ++ [[("route_id", "R9")]]) :=
  ⟨⟨by decide, Or.inr rfl⟩,
   C3_amended_empty_key_dropped "routes.txt" "route_id" (by decide)
     [("route_id", "")] (Or.inr rfl) [] [[("route_id", "R9")]]⟩

theorem key_concat_ne_empty (t s : String) : t ++ "_" ++ s ≠ "" := by
  intro h
  have hl := congrArg String.length h
  rw [String.length_append, String.length_append] at hl
  have h1 : ("_" : String).length = 1 := rfl
  have h0 : ("" : String).length = 0 := rfl
  rw [h1, h0] at hl
  omega

theorem key_concat_inj (t s1 s2 : String) (h : t ++ "_" ++ s1 = t ++ "_" ++ s2) :
    s1 = s2 := by
  have hd := congrArg String.data h
  simp only [String.data_append] at hd
  exact String.ext (List.append_cancel_left hd)

/-- C5: the StopTime primary key is the concatenation of trip_id, a literal
underscore, and stop_sequence; for two rows with equal trip_id, both are retained
when their stop_sequence values differ, and they collapse to the later row when the
stop_sequence values are also equal. -/
theorem C5_composite_key (t s1 s2 : String) (r1 r2 : Row)
    (h1 : rowGet r1 "trip_id" = some t) (h2 : rowGet r2 "trip_id" = some t)
    (hs1 : rowGet r1 "stop_sequence" = some s1)
    (hs2 : rowGet r2 "stop_sequence" = some s2) :
    getPrimaryKey "stop_times.txt" r1 = some (t ++ "_" ++ s1) ∧
    getPrimaryKey "stop_times.txt" r2 = some (t ++ "_" ++ s2) ∧
    (s1 ≠ s2 →
      loadRows "stop_times.txt" [r1, r2] =
        [(t ++ "_" ++ s1, r1), (t ++ "_" ++ s2, r2)]) ∧
    (s1 = s2 → loadRows "stop_times.txt" [r1, r2] = [(t ++ "_" ++ s2, r2)]) := by
  have hk1 : getPrimaryKey "stop_times.txt" r1 = some (t ++ "_" ++ s1) := by
    simp [getPrimaryKey, h1, hs1, jsToString]
  have hk2 : getPrimaryKey "stop_times.txt" r2 = some (t ++ "_" ++ s2) := by
    simp [getPrimaryKey, h2, hs2, jsToString]
  have e1 : loadRow "stop_times.txt" [] r1 = [(t ++ "_" ++ s1, r1)] := by
    unfold loadRow
    rw [hk1]
    simp [mapSet, key_concat_ne_empty t s1]
  refine ⟨hk1, hk2, ?_, ?_⟩
  · intro hne
    have hkne : t ++ "_" ++ s1 ≠ t ++ "_" ++ s2 := fun h => hne (key_concat_inj t s1 s2 h)
    have e2 : loadRow "stop_times.txt" [(t ++ "_" ++ s1, r1)] r2 =
        [(t ++ "_" ++ s1, r1), (t ++ "_" ++ s2, r2)] := by
      unfold loadRow
      rw [hk2]
      simp [mapSet, key_concat_ne_empty t s2, hkne]
    unfold loadRows
    simp only [List.foldl_cons, List.foldl_nil]
    rw [e1, e2]
  · intro heq
    subst heq
    have e2 : loadRow "stop_times.txt" [(t ++ "_" ++ s1, r1)] r2 =
        [(t ++ "_" ++ s1, r2)] := by
      unfold loadRow
      rw [hk2]
      simp [mapSet, key_concat_ne_empty t s1]
    unfold loadRows
    simp only [List.foldl_cons, List.foldl_nil]
    rw [e1, e2]

theorem C5_composite_key_witness :
    (rowGet [("trip_id", "T1"), ("stop_sequence", "1")] "trip_id" = some "T1" ∧
     rowGet [("trip_id", "T1"), ("stop_sequence", "2")] "trip_id" = some "T1" ∧
     rowGet [("trip_id", "T1"), ("stop_sequence", "1")] "stop_sequence" = some "1" ∧
     rowGet [("trip_id", "T1"), ("stop_sequence", "2")] "stop_sequence" = some "2") ∧
    (getPrimaryKey "stop_times.txt" [("trip_id", "T1"), ("stop_sequence", "1")] =
        some ("T1" ++ "_" ++ "1") ∧
      getPrimaryKey "stop_times.txt" [("trip_id", "T1"), ("stop_sequence", "2")] =
        some ("T1" ++ "_" ++ "2") ∧
      (("1" : String) ≠ "2" →
        loadRows "stop_times.txt"
            [[("trip_id", "T1"), ("stop_sequence", "1")],
             [("trip_id", "T1"), ("stop_sequence", "2")]] =
          [("T1" ++ "_" ++ "1", [("trip_id", "T1"), ("stop_sequence", "1")]),
           ("T1" ++ "_" ++ "2", [("trip_id", "T1"), ("stop_sequence", "2")])]) ∧
      (("1" : String) = "2" →
        loadRows "stop_times.txt"
            [[("trip_id", "T1"), ("stop_sequence", "1")],
             [("trip_id", "T1"), ("stop_sequence", "2")]] =
          [("T1" ++ "_" ++ "2", [("trip_id", "T1"), ("stop_sequence", "2")])])) :=
  ⟨⟨rfl, rfl, rfl, rfl⟩,
   C5_composite_key "T1" "1" "2" [("trip_id", "T1"), ("stop_sequence", "1")]
     [("trip_id", "T1"), ("stop_sequence", "2")] rfl rfl rfl rfl⟩

/-- C7: for every record store and every routeId such that no Trip row has route_id
equal to routeId by exact string comparison, the stops-for-route query returns the
empty sequence (the handler is total here: no error is signalled, the empty array is
serialized with status 200). -/
theorem C7_unknown_route (store : GTFSStore) (routeId : String)
    (h : ∀ t ∈ store.trips.map Prod.snd, rowGet t "route_id" ≠ some routeId) :
    stopsForRoute store routeId = [] := by
  unfold stopsForRoute stopsForRouteAux
  have hnil : (store.trips.map Prod.snd).filter
      (fun t => rowGet t "route_id" == some routeId) = [] := by
    rw [List.filter_eq_nil_iff]
    intro t ht
    simp only [beq_iff_eq]
    exact h t ht
  rw [hnil]
  rfl

theorem C7_unknown_route_witness :
    (∀ t ∈ c1Store.trips.map Prod.snd, rowGet t "route_id" ≠ some "does-not-exist") ∧
    stopsForRoute c1Store "does-not-exist" = [] :=
  ⟨by decide, C7_unknown_route c1Store "does-not-exist" (by decide)⟩

theorem addStop_unresolved (stops : JsMap) (acc : List (String × Row)) (sid : Option String)
    (h : mapGetOpt stops sid = none) : addStop stops acc sid = acc := by
  cases sid with
  | none => rfl
  | some k =>
    simp only [mapGetOpt] at h
    simp [addStop, h]

theorem foldl_addStop_filter (stops : JsMap) (l : List Row) (acc : List (String × Row)) :
    (l.filter (fun st => (mapGetOpt stops (rowGet st "stop_id")).isSome)).foldl
        (fun a st => addStop stops a (rowGet st "stop_id")) acc =
      l.foldl (fun a st => addStop stops a (rowGet st "stop_id")) acc := by
  induction l generalizing acc with
  | nil => rfl
  | cons st t ih =>
    simp only [List.filter_cons, List.foldl_cons]
    cases hx : mapGetOpt stops (rowGet st "stop_id") with
    | none =>
      rw [if_neg (by simp [hx]), addStop_unresolved stops acc _ hx]
      exact ih acc
    | some r =>
      rw [if_pos (by simp [hx])]
      simp only [List.foldl_cons]
      exact ih _

theorem map_snd_filter {α β : Type} (q : β → Bool) (l : List (α × β)) :
    (l.filter (fun p => q p.2)).map Prod.snd = (l.map Prod.snd).filter q := by
  induction l with
  | nil => rfl
  | cons p t ih =>
    simp only [List.filter_cons, List.map_cons]
    cases hq : q p.2 with
    | true => simp [hq, ih]
    | false => simp [hq, ih]

theorem filter_swap {α : Type} (p q : α → Bool) (l : List α) :
    (l.filter p).filter q = (l.filter q).filter p := by
  induction l with
  | nil => rfl
  | cons a t ih =>
    simp only [List.filter_cons]
    cases hp : p a <;> cases hq : q a <;> simp [List.filter_cons, hp, hq, ih]

theorem foldl_ext {α β : Type} (f g : α → β → α) (l : List β)
    (h : ∀ a b, b ∈ l → f a b = g a b) (a : α) : l.foldl f a = l.foldl g a := by
  induction l generalizing a with
  | nil => rfl
  | cons b t ih =>
    simp only [List.foldl_cons]
    rw [h a b (List.mem_cons_self b t)]
    exact ih (fun x y hy => h x y (List.mem_cons_of_mem _ hy)) _

/-- C6: a StopTime whose stop_id has no matching row in the Stop collection
contributes no element to the stops-for-route result and causes no error (the handler
is total): for every store and routeId, the query over the store equals the query
over the same store with all such dangling StopTimes removed. -/
theorem C6_dangling_fk (store : GTFSStore) (routeId : String) :
    stopsForRoute
      { store with
        stop_times := store.stop_times.filter
          (fun pr => (mapGetOpt store.stops (rowGet pr.2 "stop_id")).isSome) } routeId =
    stopsForRoute store routeId := by
  unfold stopsForRoute stopsForRouteAux
  apply congrArg (List.map Prod.snd)
  apply foldl_ext
  intro acc trip _
  rw [map_snd_filter (fun st => (mapGetOpt store.stops (rowGet st "stop_id")).isSome)
        store.stop_times,
      filter_swap]
  exact foldl_addStop_filter store.stops
    ((store.stop_times.map Prod.snd).filter
      (fun st => rowGet st "trip_id" == rowGet trip "trip_id")) acc

theorem loadOne_ok (fileName : String) (fi : FileInput) (h : isFailure fi = false) :
    loadOne fileName fi = Except.ok (warnOf fileName fi, loadCollection fileName fi) := by
  cases fi with
  | absent => rfl
  | rows rs => rfl
  | failure parsing msg => simp [isFailure] at h

theorem loadCore_ok (inp : GTFSInput) (h : noFailure inp) :
    loadGTFSDataCore inp = Except.ok (allWarnings inp, loadStore inp) := by
  obtain ⟨h1, h2, h3, h4, h5⟩ := h
  unfold loadGTFSDataCore
  rw [loadOne_ok _ _ h1, loadOne_ok _ _ h2, loadOne_ok _ _ h3, loadOne_ok _ _ h4,
    loadOne_ok _ _ h5]
  rfl

/-- C8: if a required table file is absent, the loader records a "Missing file"
warning, leaves that entity's collection empty, and continues with the remaining
tables without a fatal error (a failure-free load always succeeds, with each absent
file contributing its warning and an empty collection); in particular, a load with
calendar.txt absent succeeds, leaves every other collection exactly as the load with
it present, empties only the calendar collection, and the routes and stops listings
serve the same data. -/
theorem C8_missing_file (inp : GTFSInput) (h : noFailure inp) :
    loadGTFSData inp = Except.ok (allWarnings inp, loadStore inp) ∧
    loadGTFSData { inp with calendar := FileInput.absent } =
      Except.ok (allWarnings { inp with calendar := FileInput.absent },
        { loadStore inp with calendar := [] }) ∧
    "Missing file: calendar.txt" ∈ allWarnings { inp with calendar := FileInput.absent } ∧
    listRoutes { loadStore inp with calendar := [] } = listRoutes (loadStore inp) ∧
    listStops { loadStore inp with calendar := [] } = listStops (loadStore inp) := by
  obtain ⟨h1, h2, h3, h4, h5⟩ := h
  refine ⟨?_, ?_, ?_, rfl, rfl⟩
  · unfold loadGTFSData
    rw [loadCore_ok inp ⟨h1, h2, h3, h4, h5⟩]
  · unfold loadGTFSData
    rw [loadCore_ok { inp with calendar := FileInput.absent } ⟨h1, h2, h3, h4, rfl⟩]
    rfl
  · simp [allWarnings, warnOf]

theorem C8_missing_file_witness :
    noFailure c1Input ∧
    (loadGTFSData c1Input = Except.ok (allWarnings c1Input, loadStore c1Input) ∧
      loadGTFSData { c1Input with calendar := FileInput.absent } =
        Except.ok (allWarnings { c1Input with calendar := FileInput.absent },
          { loadStore c1Input with calendar := [] }) ∧
      "Missing file: calendar.txt" ∈
        allWarnings { c1Input with calendar := FileInput.absent } ∧
      listRoutes { loadStore c1Input with calendar := [] } =
        listRoutes (loadStore c1Input) ∧
      listStops { loadStore c1Input with calendar := [] } =
        listStops (loadStore c1Input)) :=
  ⟨⟨rfl, rfl, rfl, rfl, rfl⟩, C8_missing_file c1Input ⟨rfl, rfl, rfl, rfl, rfl⟩⟩

/-- The five required files, in the fixed processing order of `fileMapping`. -/
inductive GFile where
  | routes : GFile
  | stops : GFile
  | trips : GFile
  | stop_times : GFile
  | calendar : GFile
deriving DecidableEq

/-- The file name of each required file. -/
def fileNameOf : GFile → String
  | .routes => "routes.txt"
  | .stops => "stops.txt"
  | .trips => "trips.txt"
  | .stop_times => "stop_times.txt"
  | .calendar => "calendar.txt"

/-- The input presented for a given required file. -/
def fileOf (inp : GTFSInput) : GFile → FileInput
  | .routes => inp.routes
  | .stops => inp.stops
  | .trips => inp.trips
  | .stop_times => inp.stop_times
  | .calendar => inp.calendar

/-- The files the loader processes before a given file. -/
def earlierFiles : GFile → List GFile
  | .routes => []
  | .stops => [.routes]
  | .trips => [.routes, .stops]
  | .stop_times => [.routes, .stops, .trips]
  | .calendar => [.routes, .stops, .trips, .stop_times]

theorem loadCore_err (inp : GTFSInput) (g : GFile) (parsing : Bool) (msg : String)
    (h1 : fileOf inp g = FileInput.failure parsing msg)
    (h2 : ∀ g2 ∈ earlierFiles g, isFailure (fileOf inp g2) = false) :
    loadGTFSDataCore inp =
      Except.error ((if parsing then "Error parsing " else "Error reading ") ++
        fileNameOf g ++ ": " ++ msg) := by
  cases g with
  | routes =>
    have hf : inp.routes = FileInput.failure parsing msg := h1
    unfold loadGTFSDataCore
    rw [hf]
    rfl
  | stops =>
    have e1 := loadOne_ok "routes.txt" inp.routes (h2 GFile.routes (by decide))
    have hf : inp.stops = FileInput.failure parsing msg := h1
    unfold loadGTFSDataCore
    rw [e1, hf]
    rfl
  | trips =>
    have e1 := loadOne_ok "routes.txt" inp.routes (h2 GFile.routes (by decide))
    have e2 := loadOne_ok "stops.txt" inp.stops (h2 GFile.stops (by decide))
    have hf : inp.trips = FileInput.failure parsing msg := h1
    unfold loadGTFSDataCore
    rw [e1, e2, hf]
    rfl
  | stop_times =>
    have e1 := loadOne_ok "routes.txt" inp.routes (h2 GFile.routes (by decide))
    have e2 := loadOne_ok "stops.txt" inp.stops (h2 GFile.stops (by decide))
    have e3 := loadOne_ok "trips.txt" inp.trips (h2 GFile.trips (by decide))
    have hf : inp.stop_times = FileInput.failure parsing msg := h1
    unfold loadGTFSDataCore
    rw [e1, e2, e3, hf]
    rfl
  | calendar =>
    have e1 := loadOne_ok "routes.txt" inp.routes (h2 GFile.routes (by decide))
    have e2 := loadOne_ok "stops.txt" inp.stops (h2 GFile.stops (by decide))
    have e3 := loadOne_ok "trips.txt" inp.trips (h2 GFile.trips (by decide))
    have e4 := loadOne_ok "stop_times.txt" inp.stop_times (h2 GFile.stop_times (by decide))
    have hf : inp.calendar = FileInput.failure parsing msg := h1
    unfold loadGTFSDataCore
    rw [e1, e2, e3, e4, hf]
    rfl

/-- C9: if reading or parsing a present table file fails (the files processed before
it not failing, so this is the failure the sequential load hits first), the whole
load signals a fatal error whose message names the failing file, and startup is
aborted: the process exits with the non-zero status 1 and the HTTP listener is never
bound. -/
theorem C9_fatal_load_failure (inp : GTFSInput) (g : GFile) (parsing : Bool)
    (msg : String)
    (h1 : fileOf inp g = FileInput.failure parsing msg)
    (h2 : ∀ g2 ∈ earlierFiles g, isFailure (fileOf inp g2) = false) :
    loadGTFSData inp =
      Except.error ("GTFS data loading failed: " ++
        ((if parsing then "Error parsing " else "Error reading ") ++
          fileNameOf g ++ ": " ++ msg)) ∧
    initServer inp = ServerOutcome.exited 1 := by
  have hcore := loadCore_err inp g parsing msg h1 h2
  constructor
  · unfold loadGTFSData
    rw [hcore]
  · unfold initServer loadGTFSData
    rw [hcore]

/-- The failing-routes input used to witness the fatal-failure behavior. -/
def c9Input : GTFSInput :=
  ⟨.failure true "boom", .rows [], .rows [], .rows [], .rows []⟩

theorem C9_fatal_load_failure_witness :
    (fileOf c9Input GFile.routes = FileInput.failure true "boom" ∧
      ∀ g2 ∈ earlierFiles GFile.routes, isFailure (fileOf c9Input g2) = false) ∧
    (loadGTFSData c9Input =
        Except.error ("GTFS data loading failed: " ++
          ((if true then "Error parsing " else "Error reading ") ++
            fileNameOf GFile.routes ++ ": " ++ "boom")) ∧
      initServer c9Input = ServerOutcome.exited 1) :=
  ⟨⟨rfl, by decide⟩,
   C9_fatal_load_failure c9Input GFile.routes true "boom" rfl (by decide)⟩

theorem load_ok_char (inp : GTFSInput) (ws : List String) (st : GTFSStore)
    (h : loadGTFSData inp = Except.ok (ws, st)) :
    noFailure inp ∧ ws = allWarnings inp ∧ st = loadStore inp := by
  have herr : ∀ e, loadGTFSDataCore inp = Except.error e → False := by
    intro e he
    unfold loadGTFSData at h
    rw [he] at h
    simp at h
  have e1 : isFailure inp.routes = false := by
    cases hr : inp.routes with
    | absent => rfl
    | rows rs => rfl
    | failure p m =>
      exact (herr _ (loadCore_err inp GFile.routes p m hr
        (by intro g2 hg2; cases hg2))).elim
  have e2 : isFailure inp.stops = false := by
    cases hr : inp.stops with
    | absent => rfl
    | rows rs => rfl
    | failure p m =>
      refine (herr _ (loadCore_err inp GFile.stops p m hr ?_)).elim
      intro g2 hg2
      simp [earlierFiles] at hg2
      subst hg2
      exact e1
  have e3 : isFailure inp.trips = false := by
    cases hr : inp.trips with
    | absent => rfl
    | rows rs => rfl
    | failure p m =>
      refine (herr _ (loadCore_err inp GFile.trips p m hr ?_)).elim
      intro g2 hg2
      simp [earlierFiles] at hg2
      rcases hg2 with rfl | rfl
      · exact e1
      · exact e2
  have e4 : isFailure inp.stop_times = false := by
    cases hr : inp.stop_times with
    | absent => rfl
    | rows rs => rfl
    | failure p m =>
      refine (herr _ (loadCore_err inp GFile.stop_times p m hr ?_)).elim
      intro g2 hg2
      simp [earlierFiles] at hg2
      rcases hg2 with rfl | rfl | rfl
      · exact e1
      · exact e2
      · exact e3
  have e5 : isFailure inp.calendar = false := by
    cases hr : inp.calendar with
    | absent => rfl
    | rows rs => rfl
    | failure p m =>
      refine (herr _ (loadCore_err inp GFile.calendar p m hr ?_)).elim
      intro g2 hg2
      simp [earlierFiles] at hg2
      rcases hg2 with rfl | rfl | rfl | rfl
      · exact e1
      · exact e2
      · exact e3
      · exact e4
  have hNF : noFailure inp := ⟨e1, e2, e3, e4, e5⟩
  have hok : loadGTFSData inp = Except.ok (allWarnings inp, loadStore inp) := by
    unfold loadGTFSData
    rw [loadCore_ok inp hNF]
  rw [hok] at h
  simp only [Except.ok.injEq, Prod.mk.injEq] at h
  exact ⟨hNF, h.1.symm, h.2.symm⟩

theorem mapGet_mem (m : JsMap) (k : String) (v : Row) (h : mapGet m k = some v) :
    (k, v) ∈ m := by
  induction m with
  | nil => exact Option.noConfusion h
  | cons p rest ih =>
    unfold mapGet at h
    by_cases hpk : p.1 = k
    · rw [if_pos hpk] at h
      injection h with hbv
      exact List.mem_cons.mpr (Or.inl (Prod.ext hpk hbv).symm)
    · rw [if_neg hpk] at h
      exact List.mem_cons_of_mem _ (ih h)

theorem addStop_found_new (stops : JsMap) (acc : List (String × Row)) (k : String)
    (r : Row) (hx : mapGet stops k = some r)
    (hmem : acc.any (fun p => p.1 == k) = false) :
    addStop stops acc (some k) = acc ++ [(k, r)] := by
  simp [addStop, hx, hmem]

theorem addStop_found_old (stops : JsMap) (acc : List (String × Row)) (k : String)
    (r : Row) (hx : mapGet stops k = some r)
    (hmem : acc.any (fun p => p.1 == k) = true) :
    addStop stops acc (some k) = acc := by
  simp [addStop, hx, hmem]

/-- Invariant of the route-stops dedup accumulator: pairwise-distinct keys, and each
element is exactly the stops-map entry stored at its key. -/
def AccInv (stops : JsMap) (acc : List (String × Row)) : Prop :=
  (acc.map Prod.fst).Nodup ∧ ∀ p ∈ acc, mapGet stops p.1 = some p.2

theorem addStop_inv (stops : JsMap) (acc : List (String × Row)) (sid : Option String)
    (h : AccInv stops acc) : AccInv stops (addStop stops acc sid) := by
  cases sid with
  | none => exact h
  | some k =>
    cases hx : mapGet stops k with
    | none =>
      rw [addStop_unresolved stops acc (some k) (by simp [mapGetOpt, hx])]
      exact h
    | some r =>
      cases hmem : acc.any (fun p => p.1 == k) with
      | true =>
        rw [addStop_found_old stops acc k r hx hmem]
        exact h
      | false =>
        rw [addStop_found_new stops acc k r hx hmem]
        have hknot : k ∉ acc.map Prod.fst := by
          intro hk
          rcases List.mem_map.mp hk with ⟨q, hq, hqk⟩
          exact (List.any_eq_false.mp hmem q hq) (by simp [beq_iff_eq, hqk])
        constructor
        · rw [List.map_append]
          simp only [List.map_cons, List.map_nil]
          rw [List.nodup_append]
          refine ⟨h.1, List.nodup_singleton k, ?_⟩
          intro a ha hak
          rw [List.mem_singleton] at hak
          exact hknot (hak ▸ ha)
        · intro p hp
          rcases List.mem_append.mp hp with hp2 | hp2
          · exact h.2 p hp2
          · rw [List.mem_singleton] at hp2
            subst hp2
            exact hx

theorem loadRow_none (fileName : String) (m : JsMap) (r : Row)
    (h : insertedKey fileName r = none) : loadRow fileName m r = m := by
  rw [loadRow_eq, h]

theorem loadRow_some (fileName : String) (m : JsMap) (r : Row) (k : String)
    (h : insertedKey fileName r = some k) : loadRow fileName m r = mapSet m k r := by
  rw [loadRow_eq, h]

theorem loadRow_stops_wellKeyed (m : JsMap) (r : Row)
    (h : ∀ q ∈ m, rowGet q.2 "stop_id" = some q.1) :
    ∀ q ∈ loadRow "stops.txt" m r, rowGet q.2 "stop_id" = some q.1 := by
  intro q hq
  cases hik : insertedKey "stops.txt" r with
  | none =>
    rw [loadRow_none _ _ _ hik] at hq
    exact h q hq
  | some k =>
    rw [loadRow_some _ _ _ _ hik] at hq
    rcases mem_mapSet m k r q hq with h2 | h2
    · subst h2
      show rowGet r "stop_id" = some k
      unfold insertedKey at hik
      rw [show getPrimaryKey "stops.txt" r = rowGet r "stop_id" from by
        simp [getPrimaryKey]] at hik
      cases hrg : rowGet r "stop_id" with
      | none =>
        rw [hrg] at hik
        exact Option.noConfusion hik
      | some k2 =>
        rw [hrg] at hik
        by_cases hk2 : k2 = ""
        · simp [hk2] at hik
        · simp [hk2] at hik
          rw [hik]
    · exact h q h2

theorem wellKeyed_stops_collection (fi : FileInput) (q : String × Row)
    (hq : q ∈ loadCollection "stops.txt" fi) : rowGet q.2 "stop_id" = some q.1 := by
  cases fi with
  | absent => simp [loadCollection] at hq
  | failure p m => simp [loadCollection] at hq
  | rows rs =>
    refine foldl_inv (fun mm => ∀ x ∈ mm, rowGet x.2 "stop_id" = some x.1)
      (loadRow "stops.txt") (fun mm r hmm => loadRow_stops_wellKeyed mm r hmm)
      rs [] ?_ q hq
    simp

/-- C2: for every record store produced by a successful load and every routeId, the
stops-for-route result contains each stop_id at most once: the stop_id projections of
the returned rows are pairwise distinct, so a stop referenced by several matching
trips or several stop_times of one trip contributes exactly one element. -/
theorem C2_dedup_stop_id (inp : GTFSInput) (routeId : String) (ws : List String)
    (st : GTFSStore) (h : loadGTFSData inp = Except.ok (ws, st)) :
    ((stopsForRoute st routeId).map (fun r => rowGet r "stop_id")).Nodup := by
  obtain ⟨hnf, hws, hst⟩ := load_ok_char inp ws st h
  have hwk : ∀ p ∈ st.stops, rowGet p.2 "stop_id" = some p.1 := by
    intro p hp
    apply wellKeyed_stops_collection inp.stops p
    rw [hst] at hp
    exact hp
  have hinv : AccInv st.stops (stopsForRouteAux st routeId) := by
    unfold stopsForRouteAux
    refine foldl_inv (AccInv st.stops) _ ?_ _ [] ⟨List.nodup_nil, by simp⟩
    intro acc trip hacc
    refine foldl_inv (AccInv st.stops) _ ?_ _ acc hacc
    intro a stx ha
    exact addStop_inv st.stops a (rowGet stx "stop_id") ha
  have hpt : ∀ p ∈ stopsForRouteAux st routeId, rowGet p.2 "stop_id" = some p.1 :=
    fun p hp => hwk (p.1, p.2) (mapGet_mem st.stops p.1 p.2 (hinv.2 p hp))
  unfold stopsForRoute
  rw [List.map_map]
  have heq : (stopsForRouteAux st routeId).map
      ((fun r => rowGet r "stop_id") ∘ Prod.snd) =
      (stopsForRouteAux st routeId).map (fun p => some p.1) :=
    List.map_congr_left (fun p hp => hpt p hp)
  rw [heq]
  exact List.Nodup.map_on
    (fun x hx y hy hxy =>
      List.inj_on_of_nodup_map hinv.1 hx hy (Option.some.inj hxy))
    (List.Nodup.of_map Prod.fst hinv.1)

theorem C2_dedup_stop_id_witness :
    loadGTFSData c1Input = Except.ok ([], c1Store) ∧
    ((stopsForRoute c1Store "R1").map (fun r => rowGet r "stop_id")).Nodup :=
  ⟨rfl, C2_dedup_stop_id c1Input "R1" [] c1Store rfl⟩
